import Mathlib

/-!
Verification of the local-first note synchronization engine of the keep_P
repository. The definitions below are a shallow embedding, in Lean, of the
sync logic in src/src/lib/sync.ts, the local store in src/src/lib/db.ts and
the UI delete flow in the App component. Timestamps are embedded as strings
compared lexicographically, exactly as the JavaScript relational operators
compare the ISO-8601 strings stored in the records. The IndexedDB notes
table is embedded as a list of records keyed by the id field. Asynchronous
scheduler state (the single-flight flag, the sync queue of deferred
callbacks, the cooldown timers) is embedded as an explicit transition
system over the module-level variables of sync.ts.
-/

/-- A local note record, mirroring the Note type of db.ts. Optional fields
of the TypeScript type are embedded as Option; the optional booleans are
embedded as Bool since only their truthiness is ever read. -/
structure Note where
  id : String
  remote_id : Option String
  title : String
  body : String
  created_at : String
  updated_at : String
  user_id : Option String
  dirty : Bool
  deleted : Bool
deriving Repr, DecidableEq

/-- A row fetched from the remote notes table, as consumed by pullRemote and
the realtime handlers of sync.ts. Columns that the code guards with the
nullish-coalescing operator are embedded as Option. -/
structure RemoteNote where
  id : String
  title : Option String
  body : Option String
  created_at : Option String
  updated_at : Option String
  user_id : Option String
deriving Repr, DecidableEq

/-- A queued mutation, mirroring the Mutation type of db.ts. The payload
field is ignored by flushQueue (the note is re-read from the store), so it
is not embedded. -/
inductive MutType
  | upsert
  | delete
deriving Repr, DecidableEq

structure Mutation where
  id : Nat
  type : MutType
  noteId : String
  ts : Nat
deriving Repr, DecidableEq

/-- The local notes table: a list of records with the id field as primary
key (Dexie table notes of db.ts). -/
abbrev NotesStore := List Note

/-- Lookup by primary key: db.notes.get(id). -/
def getNoteById (s : NotesStore) (id : String) : Option Note :=
  s.find? (fun n => n.id = id)

/-- Lookup by the remote_id index:
db.notes.where(remote_id).equals(rid).first(). -/
def findByRemoteId (s : NotesStore) (rid : String) : Option Note :=
  s.find? (fun n => n.remote_id = some rid)

/-- Dexie put: replace the record with the same primary key, or append a
new record. -/
def putNote (s : NotesStore) (n : Note) : NotesStore :=
  if s.any (fun m => m.id = n.id) then
    s.map (fun m => if m.id = n.id then n else m)
  else
    s ++ [n]

/-- AppDB.updateNote (db.ts lines 74-87): the write is skipped entirely when
an existing record with the same id has identical title, body and
updated_at; otherwise the record is put. -/
def updateNote (s : NotesStore) (n : Note) : NotesStore :=
  match getNoteById s n.id with
  | some existing =>
      if existing.title = n.title ∧ existing.body = n.body ∧
          existing.updated_at = n.updated_at then
        s
      else
        putNote s n
  | none => putNote s n

/-- AppDB.batchUpdateNotes (db.ts lines 92-96): bulkPut, with no
duplicate-prevention check. -/
def batchUpdateNotes (s : NotesStore) (ns : List Note) : NotesStore :=
  ns.foldl putNote s

/-- Lexicographic comparison of character lists by code point, the order
JavaScript uses for its string relational operators on the ISO timestamp
strings of this code base. -/
def charListLt : List Char → List Char → Bool
  | [], [] => false
  | [], _ :: _ => true
  | _ :: _, [] => false
  | a :: as, b :: bs =>
      if a.toNat < b.toNat then true
      else if b.toNat < a.toNat then false
      else charListLt as bs

/-- The JavaScript string comparison a < b. -/
def strLt (a b : String) : Bool := charListLt a.data b.data

/-- The JavaScript comparison a > b where a is a string and b is a string
or null or undefined: lexicographic when b is a string, false otherwise
(a relational comparison against null or undefined yields false here). -/
def jsStrGtOpt (a : String) (b : Option String) : Bool :=
  match b with
  | some b => strLt b a
  | none => false

/-- The JavaScript comparison a < b where a is a string and b is a string
or null or undefined: lexicographic when b is a string, false otherwise. -/
def jsStrLtOpt (a : String) (b : Option String) : Bool :=
  match b with
  | some b => strLt a b
  | none => false

/-- The pull-phase merge guard of pullRemote (sync.ts lines 191-194):
localNewer is existing and existing.updated_at > r.updated_at, and the
remote record is applied when localNewer is falsy. This function returns
true exactly when the remote record is applied. -/
def pullApplies (existing : Option Note) (r : RemoteNote) : Bool :=
  match existing with
  | some e => ! jsStrGtOpt e.updated_at r.updated_at
  | none => true

/-- The realtime-update merge guard of handleRemoteUpdate (sync.ts line
288): the remote record is applied only when
existing.updated_at < updatedNote.updated_at. -/
def rtUpdateApplies (e : Note) (r : RemoteNote) : Bool :=
  jsStrLtOpt e.updated_at r.updated_at

/-- The record that pullRemote pushes onto notesToUpdate for a remote row r
(sync.ts lines 195-205), or none when the merge guard rejects the row.
The parameter now stands for new Date().toISOString() and freshId for
crypto.randomUUID() at this row. -/
def pullNoteFor (s : NotesStore) (now : String) (freshId : String → String)
    (r : RemoteNote) : Option Note :=
  let existing := findByRemoteId s r.id
  if pullApplies existing r then
    some {
      id := (existing.map Note.id).getD (freshId r.id)
      remote_id := some r.id
      title := r.title.getD ""
      body := r.body.getD ""
      created_at := r.created_at.getD now
      updated_at := r.updated_at.getD now
      user_id := r.user_id
      dirty := false
      deleted := false }
  else
    none

/-- One batch of the pull loop (sync.ts lines 186-212): the store lookups
of the whole batch see the store as it was when the batch started, and the
collected records are then written with batchUpdateNotes. -/
def pullProcessBatch (s : NotesStore) (now : String)
    (freshId : String → String) (batch : List RemoteNote) : NotesStore :=
  batchUpdateNotes s (batch.filterMap (pullNoteFor s now freshId))

/-- Consecutive chunks of size n of a list, mirroring the indexed slice
loops of sync.ts. The fuel argument is the list length. -/
def chunksOfAux (n : Nat) : Nat → List α → List (List α)
  | 0, _ => []
  | _, [] => []
  | fuel + 1, l => l.take n :: chunksOfAux n fuel (l.drop n)

def chunksOf (n : Nat) (l : List α) : List (List α) :=
  chunksOfAux n l.length l

/-- The merge part of pullRemote (sync.ts lines 184-213) applied to the
fetched rows: the rows are processed in batches of 20. -/
def pullRemoteApply (s : NotesStore) (now : String)
    (freshId : String → String) (data : List RemoteNote) : NotesStore :=
  (chunksOf 20 data).foldl (fun st b => pullProcessBatch st now freshId b) s

/-- handleRemoteUpdate (sync.ts lines 284-299): apply a realtime UPDATE
payload to the store. -/
def handleRemoteUpdate (s : NotesStore) (u : RemoteNote) : NotesStore :=
  match findByRemoteId s u.id with
  | none => s
  | some existing =>
      if rtUpdateApplies existing u then
        updateNote s { existing with
          title := u.title.getD existing.title
          body := u.body.getD existing.body
          updated_at := u.updated_at.getD existing.updated_at
          dirty := false }
      else
        s

def sampleLocal : Note :=
  { id := "n1"
    remote_id := some "r1"
    title := "T"
    body := "local"
    created_at := "c"
    updated_at := "5"
    user_id := some "u"
    dirty := true
    deleted := false }

def sampleRemoteTie : RemoteNote :=
  { id := "r1"
    title := some "T2"
    body := some "remote"
    created_at := some "c"
    updated_at := some "5"
    user_id := some "u" }

/-- The payload of the remote upsert issued by flushQueue (sync.ts lines
130-137). -/
structure UpsertPayload where
  id : Option String
  title : String
  body : String
  user_id : String
  updated_at : String
  created_at : String
deriving Repr, DecidableEq

/-- The behaviour of the remote store during one flush cycle: the outcome
of a delete call keyed by remote id (true on success), and the outcome of
an upsert call (the remote-assigned row id on success, none on error). -/
structure RemoteBehavior where
  deleteOk : String → Bool
  upsertResult : UpsertPayload → Option String

/-- The observable state threaded through flushQueue: the local store, the
ids of acknowledged (removed) mutations, the ids of mutations for which a
remote call was issued, and the remote ids that were the target of remote
delete calls. -/
structure FlushState where
  store : NotesStore
  acked : List Nat
  attempted : List Nat
  remoteDeletes : List String
deriving Repr, DecidableEq

/-- Processing of a single mutation inside the inner loop of flushQueue
(sync.ts lines 110-156). Returns the updated state together with true when
the body threw, which makes the inner loop break for the rest of the
batch. Reads through the note cache of db.getNote are embedded as direct
store lookups. In the delete branch, when the target note is absent the
source spreads an undefined note into the confirmation write; that write
touches no record that carries an id, so it is embedded as leaving the
store unchanged. -/
def flushMutationStep (rb : RemoteBehavior) (uid : String) (st : FlushState)
    (m : Mutation) : FlushState × Bool :=
  match m.type with
  | MutType.upsert =>
      match getNoteById st.store m.noteId with
      | none => ({ st with acked := st.acked ++ [m.id] }, false)
      | some note =>
          if note.deleted then
            match note.remote_id with
            | some rid =>
                let st1 := { st with
                  attempted := st.attempted ++ [m.id]
                  remoteDeletes := st.remoteDeletes ++ [rid] }
                let confirmed := { note with dirty := false }
                let st2 :=
                  if rb.deleteOk rid then
                    { st1 with store := updateNote st1.store confirmed }
                  else
                    st1
                ({ st2 with acked := st2.acked ++ [m.id] }, false)
            | none => ({ st with acked := st.acked ++ [m.id] }, false)
          else
            let payload : UpsertPayload :=
              { id := note.remote_id
                title := note.title
                body := note.body
                user_id := uid
                updated_at := note.updated_at
                created_at := note.created_at }
            let st1 := { st with attempted := st.attempted ++ [m.id] }
            match rb.upsertResult payload with
            | none => (st1, true)
            | some rid =>
                let confirmed := { note with
                  remote_id := some rid
                  user_id := some uid
                  dirty := false }
                ({ st1 with
                    store := updateNote st1.store confirmed
                    acked := st1.acked ++ [m.id] }, false)
  | MutType.delete =>
      match getNoteById st.store m.noteId with
      | some note =>
          match note.remote_id with
          | some rid =>
              let st1 := { st with
                attempted := st.attempted ++ [m.id]
                remoteDeletes := st.remoteDeletes ++ [rid] }
              let tombstoned := { note with deleted := true, dirty := false }
              if rb.deleteOk rid then
                let st2 := { st1 with
                  store := updateNote st1.store tombstoned }
                ({ st2 with acked := st2.acked ++ [m.id] }, false)
              else
                (st1, true)
          | none =>
              let tombstoned := { note with deleted := true, dirty := false }
              let st1 := { st with store := updateNote st.store tombstoned }
              ({ st1 with acked := st1.acked ++ [m.id] }, false)
      | none => ({ st with acked := st.acked ++ [m.id] }, false)

/-- The inner batch loop of flushQueue: mutations of one batch processed in
order; a throw breaks out of the batch (sync.ts lines 110-157). -/
def flushBatch (rb : RemoteBehavior) (uid : String) :
    FlushState → List Mutation → FlushState
  | st, [] => st
  | st, m :: rest =>
      let r := flushMutationStep rb uid st m
      if r.2 then r.1 else flushBatch rb uid r.1 rest

/-- flushQueue (sync.ts lines 96-159) with a resolved user: the ts-ordered
queue toSend is processed in batches of 10; a failure stops only the
current batch, after which the outer loop moves on to the next batch. -/
def flushQueueRun (rb : RemoteBehavior) (uid : String) (store : NotesStore)
    (toSend : List Mutation) : FlushState :=
  (chunksOf 10 toSend).foldl (flushBatch rb uid)
    { store := store, acked := [], attempted := [], remoteDeletes := [] }

/-- The shape of the remote select query issued by pullRemote (sync.ts
lines 171-175): table, projection, ordering, row limit and an optional
user equality filter. -/
structure NotesQuery where
  table : String
  selectAll : Bool
  orderField : String
  orderAscending : Bool
  rowLimit : Option Nat
  userFilter : Option String
deriving Repr, DecidableEq

/-- The query pullRemote builds: supabase.from(notes).select(*).order
(updated_at, descending).limit(100). No user filter appears in the
chain. -/
def pullQuery : NotesQuery :=
  { table := "notes"
    selectAll := true
    orderField := "updated_at"
    orderAscending := false
    rowLimit := some 100
    userFilter := none }

/-- The query pullRemote issues as a function of the resolved user id:
with no user the function returns before any query is issued (sync.ts
lines 162-166), otherwise the fixed query above is issued. -/
def pullIssuedQuery (uid : Option String) : Option NotesQuery :=
  match uid with
  | none => none
  | some _ => some pullQuery

/-- The sync cooldown window of sync.ts line 13, in milliseconds. -/
def SYNC_COOLDOWN : Nat := 5000

/-- The module-level scheduler state of sync.ts: the single-flight flag
isSyncing, the completion time of the last successful cycle, the length of
the syncQueue of deferred performSync thunks, the number of follow-up
thunks already scheduled by the finally block of performSync, the absolute
fire times of pending cooldown timers created by scheduleSync, and a
count of sync cycles started. -/
structure SyncState where
  syncing : Bool
  lastSyncTime : Nat
  queued : Nat
  scheduled : Nat
  timers : List Nat
  cycles : Nat
deriving Repr, DecidableEq

/-- The events the scheduler reacts to. mutationAt now is queueMutation
(sync.ts lines 49-56); listener is the app-sync-pending or online window
event (lines 352-377); cooldownFire t is a scheduleSync timer with
absolute fire time t firing (lines 63-67); followUpFire is a follow-up
thunk scheduled by the finally block firing (lines 87-92); completeAt now
is the in-flight cycle body finishing successfully at time now (lines
77-93). -/
inductive SyncEvent
  | mutationAt (now : Nat)
  | listener
  | cooldownFire (t : Nat)
  | followUpFire
  | completeAt (now : Nat)
deriving Repr, DecidableEq

/-- One scheduler transition. Every guard mirrors the corresponding test
in sync.ts: queueMutation only schedules when not syncing; scheduleSync
defers with a timer when inside the cooldown window and otherwise calls
performSync directly; each fired callback is performSync, which returns
immediately when a cycle is already in flight; the finally block of a
completing cycle shifts at most one queued thunk into a scheduled
follow-up. -/
def syncStep (s : SyncState) : SyncEvent → SyncState
  | SyncEvent.mutationAt now =>
      if s.syncing then s
      else if now - s.lastSyncTime < SYNC_COOLDOWN then
        { s with timers :=
            s.timers ++ [now + (SYNC_COOLDOWN - (now - s.lastSyncTime))] }
      else
        { s with syncing := true, cycles := s.cycles + 1 }
  | SyncEvent.listener =>
      if s.syncing then { s with queued := s.queued + 1 }
      else { s with syncing := true, cycles := s.cycles + 1 }
  | SyncEvent.cooldownFire t =>
      if s.timers.contains t then
        if s.syncing then { s with timers := s.timers.erase t }
        else { s with
                timers := s.timers.erase t
                syncing := true
                cycles := s.cycles + 1 }
      else s
  | SyncEvent.followUpFire =>
      if 0 < s.scheduled then
        if s.syncing then { s with scheduled := s.scheduled - 1 }
        else { s with
                scheduled := s.scheduled - 1
                syncing := true
                cycles := s.cycles + 1 }
      else s
  | SyncEvent.completeAt now =>
      if s.syncing then
        if 0 < s.queued then
          { s with
              syncing := false
              lastSyncTime := now
              queued := s.queued - 1
              scheduled := s.scheduled + 1 }
        else
          { s with syncing := false, lastSyncTime := now }
      else s

/-- The idle scheduler state at module load (sync.ts lines 10-13). -/
def syncState0 : SyncState :=
  { syncing := false
    lastSyncTime := 0
    queued := 0
    scheduled := 0
    timers := []
    cycles := 0 }

/-- Run a list of scheduler events from a given state. -/
def runSyncEvents (s : SyncState) (evs : List SyncEvent) : SyncState :=
  evs.foldl syncStep s

/-- The number of sync requests in an event list: mutation triggers and
window-event triggers. -/
def countSyncRequests (evs : List SyncEvent) : Nat :=
  (evs.filter (fun e =>
    match e with
    | SyncEvent.mutationAt _ => true
    | SyncEvent.listener => true
    | _ => false)).length

/-- A remote row strictly newer than sampleLocal. -/
def sampleRemoteNewer : RemoteNote :=
  { sampleRemoteTie with updated_at := some "6" }

/-- Eleven distinct note ids, used to exercise the batch handling of
flushQueue whose batch size is 10. -/
def elevenIds : List String :=
  ["a", "b", "c", "d", "e", "f", "g", "h", "i", "j", "k"]

/-- A dirty, never-pushed note with the given id. -/
def dirtyNote (id : String) : Note :=
  { id := id
    remote_id := none
    title := id
    body := "b"
    created_at := "c"
    updated_at := "u"
    user_id := none
    dirty := true
    deleted := false }

def elevenStore : NotesStore := elevenIds.map dirtyNote

/-- Eleven upsert mutations in ts order, one per note of elevenStore. -/
def elevenMuts : List Mutation :=
  (List.range 11).map (fun i =>
    { id := i + 1, type := MutType.upsert, noteId := elevenIds.getD i "", ts := i + 1 })

/-- A remote that fails the upsert of the note titled a and accepts every
other call. -/
def failFirstRemote : RemoteBehavior :=
  { deleteOk := fun _ => true
    upsertResult := fun p => if p.title = "a" then none else some p.title }

/-- A remote that accepts every call, assigning the remote id r1 on
upsert. -/
def acceptAllRemote : RemoteBehavior :=
  { deleteOk := fun _ => true
    upsertResult := fun _ => some "r1" }

/-- The single dirty note pushed in the C4 scenario. -/
def pushNote : Note := dirtyNote "n1"

def pushMut : Mutation :=
  { id := 1, type := MutType.upsert, noteId := "n1", ts := 1 }

/-- A note as the UI delete flow leaves it in the store before the delete
mutation is flushed (App deleteNote: put of the note with deleted true,
dirty true and a fresh updated_at), already pushed once so it carries a
remote id. -/
def tombNote : Note :=
  { id := "n1"
    remote_id := some "r1"
    title := "t"
    body := "b"
    created_at := "c"
    updated_at := "u2"
    user_id := some "u"
    dirty := true
    deleted := true }

def tombMut : Mutation :=
  { id := 1, type := MutType.delete, noteId := "n1", ts := 2 }

/-! ## Helper lemmas -/

theorem charListLt_asymm (a b : List Char) (h : charListLt a b = true) :
    charListLt b a = false := by
  induction a generalizing b with
  | nil =>
      cases b with
      | nil => simp [charListLt] at h
      | cons y ys => simp [charListLt]
  | cons x xs ih =>
      cases b with
      | nil => simp [charListLt] at h
      | cons y ys =>
          simp only [charListLt] at h ⊢
          by_cases h1 : x.toNat < y.toNat
          · have h2 : ¬ y.toNat < x.toNat := by omega
            simp [h1, h2]
          · by_cases h2 : y.toNat < x.toNat
            · simp [h1, h2] at h
            · simp [h1, h2] at h ⊢
              exact ih ys h

theorem charListLt_eq_of_both_false (a b : List Char)
    (h1 : charListLt a b = false) (h2 : charListLt b a = false) : a = b := by
  induction a generalizing b with
  | nil =>
      cases b with
      | nil => rfl
      | cons y ys => simp [charListLt] at h1
  | cons x xs ih =>
      cases b with
      | nil => simp [charListLt] at h2
      | cons y ys =>
          simp only [charListLt] at h1 h2
          by_cases hxy : x.toNat < y.toNat
          · simp [hxy] at h1
          · by_cases hyx : y.toNat < x.toNat
            · simp [hxy, hyx] at h2
            · have hchar : x = y := by
                have hn : x.toNat = y.toNat := by omega
                rw [← Char.ofNat_toNat x, ← Char.ofNat_toNat y, hn]
              simp [hxy, hyx] at h1 h2
              rw [hchar, ih ys h1 h2]

theorem strLt_asymm (a b : String) (h : strLt a b = true) :
    strLt b a = false :=
  charListLt_asymm a.data b.data h

theorem strLt_eq_of_both_false (a b : String) (h1 : strLt a b = false)
    (h2 : strLt b a = false) : a = b := by
  have hd : a.data = b.data := charListLt_eq_of_both_false a.data b.data h1 h2
  cases a with
  | mk da =>
      cases b with
      | mk db =>
          have hdd : da = db := by simpa using hd
          rw [hdd]

theorem find_map_replace (n : Note) : ∀ (s : NotesStore),
    s.any (fun m => m.id = n.id) = true →
    List.find? (fun m => decide (m.id = n.id))
      (s.map (fun m => if m.id = n.id then n else m)) = some n := by
  intro s
  induction s with
  | nil => intro h; simp at h
  | cons m ms ih =>
      intro h
      by_cases hm : m.id = n.id
      · simp [List.find?_cons, hm]
      · simp only [List.any_cons, hm] at h
        have htail : ms.any (fun m => decide (m.id = n.id)) = true := by
          simpa [hm] using h
        simp [List.find?_cons, hm]
        simpa using ih htail

theorem getNoteById_putNote_self (s : NotesStore) (n : Note) :
    getNoteById (putNote s n) n.id = some n := by
  by_cases h : s.any (fun m => m.id = n.id)
  · have hbr : putNote s n = s.map (fun m => if m.id = n.id then n else m) := by
      simp [putNote, h]
    rw [hbr]
    unfold getNoteById
    exact find_map_replace n s h
  · have hbr : putNote s n = s ++ [n] := by simp [putNote, h]
    rw [hbr]
    have hnone : List.find? (fun m => decide (m.id = n.id)) s = none := by
      apply List.find?_eq_none.mpr
      intro x hx
      simp only [List.any_eq_true] at h
      push_neg at h
      simpa using h x hx
    unfold getNoteById
    rw [List.find?_append, hnone]
    simp [List.find?_cons]

/-! ## Claim theorems -/

/-- Claim C9: when the stored record with the same id agrees with the
argument on title, body and updated_at, AppDB.updateNote leaves the store
completely unchanged; differences in the dirty, deleted, remote_id or
user_id fields of the argument are discarded. -/
theorem c9_updateNote_frame (s : NotesStore) (n e : Note)
    (hfind : getNoteById s n.id = some e)
    (ht : e.title = n.title) (hb : e.body = n.body)
    (hu : e.updated_at = n.updated_at) : updateNote s n = s := by
  unfold updateNote
  rw [hfind]
  simp [ht, hb, hu]

theorem c9_updateNote_frame_witness :
    updateNote [sampleLocal]
      { sampleLocal with dirty := false, deleted := true, remote_id := none, user_id := none }
      = [sampleLocal] :=
  c9_updateNote_frame [sampleLocal] _ sampleLocal (by decide) rfl rfl rfl

/-- Claim C10: every record the pull phase writes carries dirty false and
deleted false; hence a matching local note that is tombstoned or dirty and
not strictly newer than the remote row is overwritten with both flags
cleared. -/
theorem c10_pull_clean_flags :
    (∀ (s : NotesStore) (now : String) (freshId : String → String)
        (r : RemoteNote) (n : Note),
        pullNoteFor s now freshId r = some n →
        n.dirty = false ∧ n.deleted = false) ∧
    (∀ (s : NotesStore) (now : String) (freshId : String → String)
        (r : RemoteNote) (e : Note),
        findByRemoteId s r.id = some e →
        (e.deleted = true ∨ e.dirty = true) →
        jsStrGtOpt e.updated_at r.updated_at = false →
        ∃ n, pullNoteFor s now freshId r = some n ∧ n.id = e.id ∧
          getNoteById (pullProcessBatch s now freshId [r]) e.id = some n ∧
          n.dirty = false ∧ n.deleted = false) := by
  constructor
  · intro s now freshId r n h
    simp only [pullNoteFor] at h
    by_cases hap : pullApplies (findByRemoteId s r.id) r
    · simp only [hap, if_true, Option.some.injEq] at h
      subst h
      exact ⟨rfl, rfl⟩
    · simp [hap] at h
  · intro s now freshId r e hfind hflag hgt
    have happ : pullNoteFor s now freshId r =
        some ⟨e.id, some r.id, r.title.getD "", r.body.getD "",
          r.created_at.getD now, r.updated_at.getD now, r.user_id,
          false, false⟩ := by
      simp only [pullNoteFor, hfind]
      simp [pullApplies, hgt]
    refine ⟨_, happ, rfl, ?_, rfl, rfl⟩
    unfold pullProcessBatch batchUpdateNotes
    have hfm : List.filterMap (pullNoteFor s now freshId) [r] =
        [⟨e.id, some r.id, r.title.getD "", r.body.getD "",
          r.created_at.getD now, r.updated_at.getD now, r.user_id,
          false, false⟩] := by
      simp [List.filterMap, happ]
    rw [hfm]
    have := getNoteById_putNote_self s
      ⟨e.id, some r.id, r.title.getD "", r.body.getD "",
        r.created_at.getD now, r.updated_at.getD now, r.user_id,
        false, false⟩
    simpa using this

theorem c10_pull_clean_flags_witness :
    ∃ n, pullNoteFor [sampleLocal] "now" (fun _ => "fresh") sampleRemoteTie
        = some n ∧
      n.id = sampleLocal.id ∧
      getNoteById (pullProcessBatch [sampleLocal] "now" (fun _ => "fresh")
        [sampleRemoteTie]) sampleLocal.id = some n ∧
      n.dirty = false ∧ n.deleted = false :=
  c10_pull_clean_flags.2 [sampleLocal] "now" (fun _ => "fresh")
    sampleRemoteTie sampleLocal (by decide) (Or.inr (by decide)) (by decide)

/-- Claim C1 counterexample: a local note and a remote row share the same
remote id and the same updatedAt, with differing bodies; after the pull
merge the stored body is the remote one, so remote data was applied at a
tie and local content was not kept. -/
theorem c1_counterexample :
    sampleLocal.updated_at = "5" ∧ sampleRemoteTie.updated_at = some "5" ∧
    sampleLocal.body = "local" ∧ sampleRemoteTie.body = some "remote" ∧
    (getNoteById (pullRemoteApply [sampleLocal] "now" (fun _ => "fresh")
      [sampleRemoteTie]) "n1").map Note.body = some "remote" := by
  refine ⟨rfl, rfl, rfl, rfl, ?_⟩
  decide

/-- Claim C1 (amended): in the pull phase, for a fetched remote row with a
matching local note the remote data is applied exactly when the local
updated_at is not strictly greater than the remote updated_at under the
JavaScript string comparison; in particular equal timestamps apply the
remote content. -/
theorem c1_pull_merge_rule (s : NotesStore) (now : String)
    (freshId : String → String) (r : RemoteNote) (e : Note)
    (hfind : findByRemoteId s r.id = some e) :
    (pullNoteFor s now freshId r).isSome
      = ! jsStrGtOpt e.updated_at r.updated_at := by
  simp only [pullNoteFor, hfind]
  by_cases h : jsStrGtOpt e.updated_at r.updated_at
  · simp [pullApplies, h]
  · simp [pullApplies, h]

theorem c1_pull_merge_rule_witness :
    (pullNoteFor [sampleLocal] "now" (fun _ => "fresh") sampleRemoteTie).isSome
      = ! jsStrGtOpt sampleLocal.updated_at sampleRemoteTie.updated_at :=
  c1_pull_merge_rule [sampleLocal] "now" (fun _ => "fresh") sampleRemoteTie
    sampleLocal (by decide)

/-- Claim C5 counterexample: at equal timestamps the pull-phase guard
applies the remote row while the realtime-update guard does not, and the
two store transformations diverge on the same pair. -/
theorem c5_counterexample :
    sampleRemoteTie.updated_at = some sampleLocal.updated_at ∧
    pullApplies (some sampleLocal) sampleRemoteTie = true ∧
    rtUpdateApplies sampleLocal sampleRemoteTie = false ∧
    handleRemoteUpdate [sampleLocal] sampleRemoteTie = [sampleLocal] ∧
    pullProcessBatch [sampleLocal] "now" (fun _ => "fresh") [sampleRemoteTie]
      ≠ [sampleLocal] := by
  refine ⟨rfl, by decide, by decide, by decide, by decide⟩

/-- Claim C5 (amended): the realtime-update guard and the pull-phase guard
coincide whenever the remote row carries an updated_at different from the
local one; at equal timestamps (and when the remote updated_at is absent)
the pull phase applies the row while the realtime path does not. -/
theorem c5_merge_predicates_agree (e : Note) (r : RemoteNote) (t : String)
    (hr : r.updated_at = some t) (hne : t ≠ e.updated_at) :
    pullApplies (some e) r = rtUpdateApplies e r := by
  simp only [pullApplies, rtUpdateApplies, jsStrGtOpt, jsStrLtOpt, hr]
  cases h1 : strLt t e.updated_at with
  | true => simp [strLt_asymm t e.updated_at h1]
  | false =>
      cases h2 : strLt e.updated_at t with
      | true => simp
      | false => exact absurd (strLt_eq_of_both_false t e.updated_at h1 h2) hne

theorem c5_merge_predicates_agree_witness :
    pullApplies (some sampleLocal) sampleRemoteNewer
      = rtUpdateApplies sampleLocal sampleRemoteNewer :=
  c5_merge_predicates_agree sampleLocal sampleRemoteNewer "6" rfl (by decide)

/-- Claim C3 (code bug witness evaluation): with eleven queued upserts
where the first mutation's remote upsert fails, the break leaves only the
first batch of ten, so the eleventh mutation is still attempted and
acknowledged in the same cycle while the failing first mutation stays
queued — the cycle does not stop at the failure. -/
theorem c3_batch_boundary_attempts :
    (flushQueueRun failFirstRemote "u" elevenStore elevenMuts).attempted
      = [1, 11] ∧
    (flushQueueRun failFirstRemote "u" elevenStore elevenMuts).acked
      = [11] := by
  refine ⟨?_, ?_⟩ <;> decide

/-- Claim C4 (code bug witness evaluation): a dirty note without a remote
id is pushed; the remote upsert succeeds and the mutation is acknowledged,
yet the stored record is unchanged — still dirty and still without a
remote id — because the confirmation write is skipped by updateNote. -/
theorem c4_upsert_confirmation_skipped :
    pushNote.dirty = true ∧ pushNote.remote_id = none ∧
    pushNote.deleted = false ∧
    (flushQueueRun acceptAllRemote "u" [pushNote] [pushMut]).acked = [1] ∧
    getNoteById
      (flushQueueRun acceptAllRemote "u" [pushNote] [pushMut]).store "n1"
      = some pushNote := by
  refine ⟨rfl, rfl, rfl, ?_, ?_⟩ <;> decide

/-- Claim C7 (code bug witness evaluation): flushing the delete mutation of
a tombstoned note with a remote id issues the remote delete with that id
and retains the record with deleted true, but the stored record keeps
dirty true: the confirmation write that should clear dirty is skipped by
updateNote. -/
theorem c7_tombstone_confirmation_skipped :
    tombNote.deleted = true ∧ tombNote.dirty = true ∧
    tombNote.remote_id = some "r1" ∧
    (flushQueueRun acceptAllRemote "u" [tombNote] [tombMut]).remoteDeletes
      = ["r1"] ∧
    (flushQueueRun acceptAllRemote "u" [tombNote] [tombMut]).acked = [1] ∧
    getNoteById
      (flushQueueRun acceptAllRemote "u" [tombNote] [tombMut]).store "n1"
      = some tombNote := by
  refine ⟨rfl, rfl, rfl, ?_, ?_, ?_⟩ <;> decide

/-- Claim C6 counterexample: with a resolved user the query pullRemote
issues carries the 100-row limit but no user filter, so the issued query
is not scoped to the resolved identity. -/
theorem c6_counterexample :
    pullIssuedQuery (some "user-1") = some pullQuery ∧
    pullQuery.userFilter = none ∧ pullQuery.rowLimit = some 100 :=
  ⟨rfl, rfl, rfl⟩

/-- Claim C6 (amended): the pull phase issues its select query only once a
user identity is resolved, and the query carries a bounded page size of
100 rows, but no user filter: scoping to the user is left to the row-level
security of the remote store. -/
theorem c6_pull_query_shape (uid : Option String) (q : NotesQuery)
    (h : pullIssuedQuery uid = some q) :
    q.rowLimit = some 100 ∧ q.userFilter = none ∧ uid.isSome = true := by
  cases uid with
  | none => simp [pullIssuedQuery] at h
  | some u =>
      simp only [pullIssuedQuery, Option.some.injEq] at h
      subst h
      exact ⟨rfl, rfl, rfl⟩

theorem c6_pull_query_shape_witness :
    pullQuery.rowLimit = some 100 ∧ pullQuery.userFilter = none ∧
      (some "user-1").isSome = true :=
  c6_pull_query_shape (some "user-1") pullQuery rfl

/-- Claim C2 counterexample: three window-event sync requests, the last
two arriving while the first cycle is in flight, lead to three executed
cycles — each queued request is drained into its own follow-up cycle after
a completion, so the total is one per request rather than at most two. -/
theorem c2_counterexample :
    (runSyncEvents syncState0 [SyncEvent.listener]).syncing = true ∧
    runSyncEvents syncState0
      [SyncEvent.listener, SyncEvent.listener, SyncEvent.listener,
       SyncEvent.completeAt 10, SyncEvent.followUpFire,
       SyncEvent.completeAt 20, SyncEvent.followUpFire]
      = ⟨true, 20, 0, 0, [], 3⟩ := by
  refine ⟨rfl, ?_⟩
  decide

/-- Claim C2 (amended): the scheduler is single-flight — no event starts a
cycle while one is in flight, and started cycles never exceed arrived
requests — but requests queued during a cycle are drained one per
completion, each into its own follow-up cycle, rather than being coalesced
into a single follow-up. -/
theorem c2_single_flight_drain :
    (∀ (s : SyncState) (e : SyncEvent), s.syncing = true →
      (syncStep s e).cycles = s.cycles) ∧
    (∀ (evs : List SyncEvent) (s : SyncState),
      (runSyncEvents s evs).cycles + (runSyncEvents s evs).queued +
        (runSyncEvents s evs).scheduled +
        (runSyncEvents s evs).timers.length
      ≤ s.cycles + s.queued + s.scheduled + s.timers.length
          + countSyncRequests evs) := by
  constructor
  · intro s e h
    cases e <;> simp [syncStep, h] <;> (try (split <;> simp))
  · have hstep : ∀ (s : SyncState) (e : SyncEvent),
        (syncStep s e).cycles + (syncStep s e).queued +
          (syncStep s e).scheduled + (syncStep s e).timers.length
        ≤ s.cycles + s.queued + s.scheduled + s.timers.length
            + countSyncRequests [e] := by
      intro s e
      cases e with
      | mutationAt now =>
          by_cases h1 : s.syncing
          · simp [syncStep, h1, countSyncRequests] <;> omega
          · by_cases h2 : now - s.lastSyncTime < SYNC_COOLDOWN
            · simp [syncStep, h1, h2, countSyncRequests] <;> omega
            · simp [syncStep, h1, h2, countSyncRequests] <;> omega
      | listener =>
          by_cases h1 : s.syncing
          · simp [syncStep, h1, countSyncRequests] <;> omega
          · simp [syncStep, h1, countSyncRequests] <;> omega
      | cooldownFire t =>
          by_cases h1 : t ∈ s.timers
          · have hlen : (s.timers.erase t).length = s.timers.length - 1 :=
              List.length_erase_of_mem h1
            have hpos : 0 < s.timers.length := List.length_pos_of_mem h1
            by_cases h2 : s.syncing
            · simp [syncStep, h1, h2, countSyncRequests, hlen] <;> omega
            · simp [syncStep, h1, h2, countSyncRequests, hlen] <;> omega
          · simp [syncStep, h1, countSyncRequests] <;> omega
      | followUpFire =>
          by_cases h1 : 0 < s.scheduled
          · by_cases h2 : s.syncing
            · simp [syncStep, h1, h2, countSyncRequests] <;> omega
            · simp [syncStep, h1, h2, countSyncRequests] <;> omega
          · simp [syncStep, h1, countSyncRequests] <;> omega
      | completeAt now =>
          by_cases h1 : s.syncing
          · by_cases h2 : 0 < s.queued
            · simp [syncStep, h1, h2, countSyncRequests] <;> omega
            · simp [syncStep, h1, h2, countSyncRequests] <;> omega
          · simp [syncStep, h1, countSyncRequests] <;> omega
    intro evs
    induction evs with
    | nil => intro s; simp [runSyncEvents, countSyncRequests]
    | cons e evs ih =>
        intro s
        have h1 := hstep s e
        have h2 := ih (syncStep s e)
        have hc : countSyncRequests (e :: evs)
            = countSyncRequests [e] + countSyncRequests evs := by
          cases e <;> simp [countSyncRequests, List.filter_cons] <;> omega
        simp only [runSyncEvents, List.foldl_cons] at h2 ⊢
        simp only [runSyncEvents] at h1
        omega

theorem c2_single_flight_drain_witness :
    (syncStep ⟨true, 0, 1, 0, [], 1⟩ SyncEvent.listener).cycles = 1 ∧
    (runSyncEvents syncState0 [SyncEvent.listener]).cycles +
      (runSyncEvents syncState0 [SyncEvent.listener]).queued +
      (runSyncEvents syncState0 [SyncEvent.listener]).scheduled +
      (runSyncEvents syncState0 [SyncEvent.listener]).timers.length
      ≤ syncState0.cycles + syncState0.queued + syncState0.scheduled +
        syncState0.timers.length + countSyncRequests [SyncEvent.listener] :=
  ⟨c2_single_flight_drain.1 ⟨true, 0, 1, 0, [], 1⟩ SyncEvent.listener rfl,
   c2_single_flight_drain.2 [SyncEvent.listener] syncState0⟩

/-- Claim C8 counterexample: a mutation request arriving inside the
cooldown window is deferred to a timer; a window-event request then
starts a cycle, and when the deferred timer fires during that in-flight
cycle the callback is dropped. The whole run ends in exactly the state of
the run without the deferred request, and only one cycle ever executes:
the deferred request never results in an executed cycle. -/
theorem c8_counterexample :
    runSyncEvents syncState0
      [SyncEvent.mutationAt 100, SyncEvent.listener,
       SyncEvent.cooldownFire 5000, SyncEvent.completeAt 6000]
      = runSyncEvents syncState0
        [SyncEvent.listener, SyncEvent.cooldownFire 5000,
         SyncEvent.completeAt 6000] ∧
    (runSyncEvents syncState0
      [SyncEvent.mutationAt 100, SyncEvent.listener,
       SyncEvent.cooldownFire 5000, SyncEvent.completeAt 6000]).cycles
      = 1 := by
  refine ⟨?_, ?_⟩ <;> decide

/-- Claim C8 (amended): a mutation-triggered request arriving while idle
and inside the cooldown window is deferred to a timer that fires when the
cooldown elapses; a firing timer executes a cycle only when no cycle is
then in flight — a timer firing during an in-flight cycle is dropped
without rescheduling. -/
theorem c8_cooldown_defer_and_drop :
    (∀ (s : SyncState) (now : Nat), s.syncing = false →
      now - s.lastSyncTime < SYNC_COOLDOWN →
      syncStep s (SyncEvent.mutationAt now)
        = { s with timers := s.timers ++
            [now + (SYNC_COOLDOWN - (now - s.lastSyncTime))] }) ∧
    (∀ (s : SyncState) (t : Nat), s.timers.contains t = true →
      s.syncing = false →
      syncStep s (SyncEvent.cooldownFire t)
        = { s with
            timers := s.timers.erase t
            syncing := true
            cycles := s.cycles + 1 }) ∧
    (∀ (s : SyncState) (t : Nat), s.timers.contains t = true →
      s.syncing = true →
      syncStep s (SyncEvent.cooldownFire t)
        = { s with timers := s.timers.erase t }) := by
  refine ⟨?_, ?_, ?_⟩
  · intro s now h1 h2
    simp [syncStep, h1, h2]
  · intro s t h1 h2
    have hmem : t ∈ s.timers := by simpa using h1
    simp [syncStep, hmem, h2]
  · intro s t h1 h2
    have hmem : t ∈ s.timers := by simpa using h1
    simp [syncStep, hmem, h2]

theorem c8_cooldown_defer_and_drop_witness :
    syncStep syncState0 (SyncEvent.mutationAt 100)
      = { syncState0 with timers := [5000] } ∧
    syncStep ⟨false, 0, 0, 0, [5000], 1⟩ (SyncEvent.cooldownFire 5000)
      = ⟨true, 0, 0, 0, [], 2⟩ ∧
    syncStep ⟨true, 0, 0, 0, [5000], 1⟩ (SyncEvent.cooldownFire 5000)
      = ⟨true, 0, 0, 0, [], 1⟩ :=
  ⟨c8_cooldown_defer_and_drop.1 syncState0 100 rfl (by decide),
   c8_cooldown_defer_and_drop.2.1 ⟨false, 0, 0, 0, [5000], 1⟩ 5000
     (by decide) rfl,
   c8_cooldown_defer_and_drop.2.2 ⟨true, 0, 0, 0, [5000], 1⟩ 5000
     (by decide) rfl⟩
